import Mathlib

/-!
# Verification of monit's validation engine (`src/validate.c`)

A shallow embedding of the per-cycle validation engine of the monit
monitoring daemon.  Each C function relevant to the claims is translated
into an executable Lean definition: stateful C code becomes explicit
state passing, `goto`-based loops become structural recursion, events
posted through `Event_post` are collected into a `List Event`.
C `int`/`long` values are modelled as `Int`, C `double` values (load
averages, percentages before scaling) as `Rat`.
-/

namespace Monit

/-- Event kinds, from `event.h` as used by `validate.c`. -/
inductive EventKind where
  | Nonexist | Invalid | Data | Exec | Timeout | Pid | PPid | Fsflag
  | Icmp | Connection | Status | Action | Content | Checksum
  | Permission | Uid | Gid | Size | Timestamp | Uptime | Resource
deriving DecidableEq, Repr

/-- Event states (`STATE_FAILED`, `STATE_SUCCEEDED`, `STATE_CHANGED`, `STATE_CHANGEDNOT`). -/
inductive EventState where
  | SUCCEEDED | FAILED | CHANGED | CHANGEDNOT
deriving DecidableEq, Repr

/-- One call to `Event_post(s, kind, state, action, message)`, restricted to the
fields the claims talk about: the event kind, its state and the message. -/
structure Event where
  kind : EventKind
  state : EventState
  msg : String
deriving DecidableEq, Repr

/-- Relational operators of the quantitative expression language
(`Operator_Greater`, `Operator_Less`, `Operator_Equal`, `Operator_NotEqual`,
`Operator_GreaterOrEqual`, `Operator_LessOrEqual`). -/
inductive Operator where
  | greater | less | equal | notEqual | greaterOrEqual | lessOrEqual
deriving DecidableEq, Repr

/-- Modelled from the spec: the expression evaluator `Util_evalQExpression`
(it lives in `util.c`, which is not part of `src/`): a quantitative
comparison of a measured integer or scaled value against a limit under a
relational operator, returning `true` when the comparison holds, i.e. when
the test matches. -/
def Util_evalQExpression (op : Operator) (value limit : Int) : Bool :=
  match op with
  | .greater => value > limit
  | .less => value < limit
  | .equal => value = limit
  | .notEqual => value ≠ limit
  | .greaterOrEqual => value ≥ limit
  | .lessOrEqual => value ≤ limit

/-! ## `check_process_pid`, `check_process_ppid`, `check_filesystem_flags`

`validate.c` lines 677-707 and 1237-1246.  Each function reads the info
snapshot only; we pass the relevant fields and return the posted events.
The C fields `_pid`, `_ppid`, `_flags` (previous-cycle samples) are named
`pid_prev`, `ppid_prev`, `flags_prev` here.
-/

/-- Process info snapshot fields used by the pid/ppid change tests
(`s->inf->priv.process`). -/
structure ProcessInf where
  pid_prev : Int
  pid : Int
  ppid_prev : Int
  ppid : Int
deriving DecidableEq, Repr

/-- `check_process_pid` (validate.c:677): skip when the previous pid is the
`-1` sentinel, otherwise post exactly one `Pid` event, `CHANGED` when the
pid differs from the previous cycle and `CHANGEDNOT` otherwise. -/
def check_process_pid (inf : ProcessInf) : List Event :=
  if inf.pid_prev = -1 then []
  else if inf.pid_prev ≠ inf.pid then
    [⟨.Pid, .CHANGED, "process PID changed"⟩]
  else
    [⟨.Pid, .CHANGEDNOT, "process PID has not changed since last cycle"⟩]

/-- `check_process_ppid` (validate.c:695): same shape for the parent pid. -/
def check_process_ppid (inf : ProcessInf) : List Event :=
  if inf.ppid_prev = -1 then []
  else if inf.ppid_prev ≠ inf.ppid then
    [⟨.PPid, .CHANGED, "process PPID changed"⟩]
  else
    [⟨.PPid, .CHANGEDNOT, "process PPID has not changed since last cycle"⟩]

/-- Filesystem info snapshot fields used by the flags change test
(`s->inf->priv.filesystem`). -/
structure FilesystemFlags where
  flags_prev : Int
  flags : Int
deriving DecidableEq, Repr

/-- `check_filesystem_flags` (validate.c:1237): skip when the previous flags
are the `-1` sentinel; post one `Fsflag CHANGED` event when the flags
differ from the previous cycle, and post nothing at all otherwise (there is
no `CHANGEDNOT` branch in the C code). -/
def check_filesystem_flags (f : FilesystemFlags) : List Event :=
  if f.flags_prev = -1 then []
  else if f.flags_prev ≠ f.flags then
    [⟨.Fsflag, .CHANGED, "filesystem flags changed"⟩]
  else []

/-! ## `check_skip` (validate.c:1339)

Only the `EVERY_SKIPCYCLES` schedule and the `visited` flag matter to
claim C7; the state touched is the skip counter and the `MONITOR_WAITING`
bit of `s->monitor`.
-/

/-- The per-service state read and written by `check_skip` under the
`EVERY_SKIPCYCLES` schedule: the `visited` flag, the cycle counter
`s->every.spec.cycle.counter` and the `MONITOR_WAITING` bit. -/
structure SkipState where
  visited : Bool
  counter : Int
  monitor_waiting : Bool
deriving DecidableEq, Repr

/-- `check_skip` for a service whose schedule is `EVERY_SKIPCYCLES` with
parameter `number`: returns the C function's return value (`true` = skip)
together with the updated state. -/
def check_skip (number : Int) (s : SkipState) : Bool × SkipState :=
  if s.visited then (true, s)
  else
    let c := s.counter + 1
    if c < number then
      (true, { s with counter := c, monitor_waiting := true })
    else
      (false, { s with counter := 0, monitor_waiting := false })

/-- Iterate `check_skip` a number of calls, returning the list of the
returned values (in call order) and the final state. -/
def check_skip_iter (number : Int) (s : SkipState) : Nat → List Bool × SkipState
  | 0 => ([], s)
  | n + 1 =>
      let (b, s') := check_skip number s
      let (bs, s'') := check_skip_iter number s' n
      (b :: bs, s'')

/-! ## `check_timeout` (validate.c:1306) -/

/-- An action-rate rule `(count, cycle)` from `s->actionratelist`
(the bound action does not matter to claim C8). -/
structure ActionRate where
  count : Int
  cycle : Int
deriving DecidableEq, Repr

/-- The restart-rate counters of a service. -/
structure RateState where
  nstart : Int
  ncycle : Int
deriving DecidableEq, Repr

/-- The maximum declared rule cycle, computed exactly as the C loop does:
`max` starts at 0 and is bumped whenever `max < ar->cycle`. -/
def maxCycle (rules : List ActionRate) : Int :=
  rules.foldl (fun m ar => if m < ar.cycle then ar.cycle else m) 0

/-- `check_timeout` (validate.c:1306): with an empty `actionratelist` it is a
no-op; otherwise, if `nstart > 0` increment `ncycle`, post a `Timeout FAILED`
event for every rule with `nstart ≥ count` and `ncycle ≤ cycle`, and finally
reset both counters to 0 when `ncycle` exceeds the maximum declared cycle. -/
def check_timeout (rules : List ActionRate) (st : RateState) : RateState × List Event :=
  if rules = [] then (st, [])
  else
    let st1 : RateState :=
      if st.nstart > 0 then { st with ncycle := st.ncycle + 1 } else st
    let events := rules.filterMap (fun ar =>
      if st1.nstart ≥ ar.count ∧ st1.ncycle ≤ ar.cycle then
        some ⟨EventKind.Timeout, EventState.FAILED, "service restarted too often"⟩
      else none)
    let st2 : RateState :=
      if st1.ncycle > maxCycle rules then { nstart := 0, ncycle := 0 } else st1
    (st2, events)

/-! ## `check_connection` (validate.c:591)

The connection probe is a `goto retry` loop.  One *attempt* is everything
between the `retry:` label and either the successful response-time
computation or the `error:` label: socket creation, the readiness check and
the protocol check.  We abstract one attempt into an oracle
`att : Nat → AttemptRes` giving the outcome of the i-th attempt; a failing
attempt carries the report message written into `report` by `snprintf`.
-/

/-- Outcome of one connection attempt: success with a measured response
time, or failure with the recorded report message. -/
inductive AttemptRes where
  | ok (t : Int)
  | fail (report : String)
deriving DecidableEq, Repr

/-- A port descriptor: the fields of `Port_T` read and written by
`check_connection`. -/
structure Port where
  retry : Int
  response : Int
  is_available : Bool
deriving DecidableEq, Repr

/-- Final outcome of the retry loop: success with the last measured
response time, or failure with the last recorded report. -/
inductive ConnOutcome where
  | success (t : Int)
  | failure (report : String)
deriving DecidableEq, Repr

/-- The `goto retry` loop of `check_connection`: `idx` is the index of the
current attempt, `rc` the current value of `retry_count`, `rv` the C `rv`
flag and `rep` the current contents of the `report` buffer.  `rv` starts
`TRUE` and is set `FALSE` at the first failing step; the C code *never
resets it* at the `retry:` label, so after one failure even an attempt
whose every step succeeds falls through the `error:` label into the
`!rv` retry/failure handling.  A failing attempt overwrites `rep`; a
non-failing one leaves it.  On failure the code retries exactly when
`retry_count-- > 1`.  Returns the number of attempts made and the
outcome. -/
def connLoop (att : Nat → AttemptRes) (idx : Nat) (rv : Bool) (rep : String)
    (rc : Int) : Nat × ConnOutcome :=
  match att idx with
  | .ok t =>
      if rv then (1, .success t)
      else if h : rc > 1 then
        let p := connLoop att (idx + 1) false rep (rc - 1)
        (p.1 + 1, p.2)
      else (1, .failure rep)
  | .fail r =>
      if h : rc > 1 then
        let p := connLoop att (idx + 1) false r (rc - 1)
        (p.1 + 1, p.2)
      else (1, .failure r)
termination_by rc.toNat
decreasing_by all_goals omega

/-- Result of `check_connection`: the updated port, the posted events and
the number of connection attempts made. -/
structure ConnResult where
  port : Port
  events : List Event
  attempts : Nat
deriving DecidableEq, Repr

/-- `check_connection` (validate.c:591): run the retry loop starting from
`retry_count = p->retry`; when it ends in failure set `p->response = -1`,
`p->is_available = false` and post one `Connection FAILED` event carrying
the recorded report; when an attempt succeeds set `p->is_available = true`,
store the response time and post one `Connection SUCCEEDED` event. -/
def check_connection (p : Port) (att : Nat → AttemptRes) : ConnResult :=
  match connLoop att 0 true "" p.retry with
  | (n, .success t) =>
      ⟨{ p with response := t, is_available := true },
       [⟨.Connection, .SUCCEEDED, "connection succeeded"⟩], n⟩
  | (n, .failure r) =>
      ⟨{ p with response := -1, is_available := false },
       [⟨.Connection, .FAILED, r⟩], n⟩

/-! ## `check_remote_host` (validate.c:511) -/

/-- ICMP type of an icmp descriptor: `ICMP_ECHO` or any other value
(handled by the `default:` branch of the C switch). -/
inductive IcmpType where
  | echo
  | other (n : Int)
deriving DecidableEq, Repr

/-- One `Icmp_T` descriptor together with the oracle result of its
`icmp_echo` probe (`-2` no privilege, `-1` failed, `≥ 0` response time). -/
structure Icmp where
  type : IcmpType
  response : Int
  is_available : Bool
deriving DecidableEq, Repr

/-- One iteration of the icmplist loop body for an `ICMP_ECHO` entry:
update `is_available` from the probe response and post the `Icmp` event
(no event for the `-2` no-privilege case). -/
def icmpStep (i : Icmp) : Icmp × List Event :=
  if i.response = -2 then ({ i with is_available := true }, [])
  else if i.response = -1 then
    ({ i with is_available := false }, [⟨.Icmp, .FAILED, "failed ICMP test"⟩])
  else
    ({ i with is_available := true }, [⟨.Icmp, .SUCCEEDED, "succeeded ICMP test"⟩])

/-- The icmplist loop of `check_remote_host`: walk the list tracking
`last_ping`; an unknown ICMP type makes the whole function return `FALSE`
immediately.  Returns `(ok, last_ping, events)`. -/
def icmpLoop (last : Option Icmp) : List Icmp → Bool × Option Icmp × List Event
  | [] => (true, last, [])
  | i :: rest =>
      match i.type with
      | .other _ => (false, last, [])
      | .echo =>
          let (i', ev) := icmpStep i
          let (ok, l, evs) := icmpLoop (some i') rest
          (ok, l, ev ++ evs)

/-- `check_remote_host` (validate.c:511): process the icmplist; on an
unknown ICMP type return `FALSE`.  If the last ping is unavailable, skip
every port probe and return `FALSE`.  Otherwise run `check_connection` on
every port and return `TRUE`.  Each port comes with its attempt oracle. -/
def check_remote_host (icmps : List Icmp) (ports : List (Port × (Nat → AttemptRes))) :
    Bool × List Event :=
  match icmpLoop none icmps with
  | (false, _, evs) => (false, evs)
  | (true, last, evs) =>
      if (match last with | some l => l.is_available = false | none => false : Bool) then
        (false, evs)
      else
        (true, evs ++ ports.foldr (fun pa acc => (check_connection pa.1 pa.2).events ++ acc) [])

/-! ## `check_checksum` (validate.c:890)

Only the probe-success path is modelled (the claim is conditional on the
probe succeeding): `sum` is the hex string the probe wrote into
`s->inf->priv.file.cs_sum`.  Strings are NUL-free lists of characters, so
`strncmp(a, b, n) == 0` is exactly `a.take n = b.take n`. -/

/-- Hash type of a checksum descriptor (`HASH_MD5` / `HASH_SHA1`; the
`default:` branch of the C switch is unreachable for descriptors built by
the parser and outside the claim). -/
inductive HashType where
  | md5
  | sha1
deriving DecidableEq, Repr

/-- Number of hex characters compared for each hash type. -/
def hashLength : HashType → Nat
  | .md5 => 32
  | .sha1 => 40

/-- A `Checksum_T` descriptor. -/
structure Checksum where
  type : HashType
  hash : List Char
  initialized : Bool
  test_changes : Bool
deriving DecidableEq, Repr

/-- `check_checksum` (validate.c:890), probe-success path: post
`Data SUCCEEDED`; on the first pass store the computed sum as the expected
hash; compare the first 32 (MD5) / 40 (SHA1) characters; post the
`Checksum` event according to change and `test_changes`, updating the
expected hash on a change in `test_changes` mode. -/
def check_checksum (cs : Checksum) (sum : List Char) : Checksum × List Event :=
  let dataEv : Event := ⟨.Data, .SUCCEEDED, "checksum computed"⟩
  let cs1 := if cs.initialized = false then { cs with initialized := true, hash := sum } else cs
  let n := hashLength cs1.type
  if cs1.hash.take n ≠ sum.take n then
    if cs1.test_changes then
      ({ cs1 with hash := sum }, [dataEv, ⟨.Checksum, .CHANGED, "checksum was changed"⟩])
    else
      (cs1, [dataEv, ⟨.Checksum, .FAILED, "checksum test failed"⟩])
  else if cs1.test_changes then
    (cs1, [dataEv, ⟨.Checksum, .CHANGEDNOT, "checksum has not changed"⟩])
  else
    (cs1, [dataEv, ⟨.Checksum, .SUCCEEDED, "checksum succeeded"⟩])

/-! ## `check_size` (validate.c:1043) and `check_timestamp` (validate.c:999) -/

/-- A `Size_T` descriptor: `size` doubles as the stored sample
(`test_changes` mode) and the comparison limit. -/
structure SizeDesc where
  test_changes : Bool
  initialized : Bool
  size : Int
  op : Operator
deriving DecidableEq, Repr

/-- `check_size` (validate.c:1043): walk the sizelist against the current
file size `cur`.  A `test_changes` descriptor ends the walk (`break`):
uninitialized, it just stores the sample (no event); otherwise it posts
`CHANGED` (updating the sample) or `CHANGEDNOT`.  A plain descriptor posts
`FAILED`/`SUCCEEDED` from the quantitative comparison and the walk
continues. -/
def check_size : List SizeDesc → Int → List SizeDesc × List Event
  | [], _ => ([], [])
  | sl :: rest, cur =>
      if sl.test_changes then
        if sl.initialized = false then
          ({ sl with initialized := true, size := cur } :: rest, [])
        else if sl.size ≠ cur then
          ({ sl with size := cur } :: rest, [⟨.Size, .CHANGED, "size was changed"⟩])
        else
          (sl :: rest, [⟨.Size, .CHANGEDNOT, "size was not changed"⟩])
      else
        let ev : Event :=
          if Util_evalQExpression sl.op cur sl.size then
            ⟨.Size, .FAILED, "size test failed"⟩
          else
            ⟨.Size, .SUCCEEDED, "size succeeded"⟩
        let (rest', evs) := check_size rest cur
        (sl :: rest', ev :: evs)

/-- A `Timestamp_T` descriptor: `timestamp` is the stored sample, `time`
the comparison threshold. -/
structure TimestampDesc where
  test_changes : Bool
  timestamp : Int
  op : Operator
  time : Int
deriving DecidableEq, Repr

/-- The timestamplist loop of `check_timestamp` (validate.c:1011):
`infTs` is `s->inf->timestamp`, `now` the current time.  A `test_changes`
descriptor posts `CHANGED` (updating the sample) or `CHANGEDNOT` and ends
the walk (`break`); a plain descriptor compares `now - infTs` against its
threshold. -/
def check_timestamp_loop : List TimestampDesc → Int → Int → List TimestampDesc × List Event
  | [], _, _ => ([], [])
  | t :: rest, infTs, now =>
      if t.test_changes then
        if t.timestamp ≠ infTs then
          ({ t with timestamp := infTs } :: rest,
           [⟨.Timestamp, .CHANGED, "timestamp was changed"⟩])
        else
          (t :: rest, [⟨.Timestamp, .CHANGEDNOT, "timestamp was not changed"⟩])
      else
        let ev : Event :=
          if Util_evalQExpression t.op (now - infTs) t.time then
            ⟨.Timestamp, .FAILED, "timestamp test failed"⟩
          else
            ⟨.Timestamp, .SUCCEEDED, "timestamp succeeded"⟩
        let (rest', evs) := check_timestamp_loop rest infTs now
        (t :: rest', ev :: evs)

/-- `check_timestamp` (validate.c:999), system-time-available path: post
`Data SUCCEEDED` and run the descriptor loop. -/
def check_timestamp (l : List TimestampDesc) (infTs now : Int) :
    List TimestampDesc × List Event :=
  let (l', evs) := check_timestamp_loop l infTs now
  (l', ⟨.Data, .SUCCEEDED, "actual system time obtained"⟩ :: evs)

/-! ## `check_match` line reading (validate.c:1153-1190)

The file is a NUL-free list of characters; `rest` is its content from the
current read position on.  One iteration of the `while (TRUE)` loop either
jumps to `final` without touching `readpos` (EOF, incomplete line, EOF
while discarding an oversize line) or produces a line to match and the
amount by which `readpos` is advanced. -/

/-- Line buffer size of the content match test. -/
def MATCH_LINE_LENGTH : Nat := 512

/-- `fgets(line, n + 1, file)` on the remaining content: read at most `n`
characters, stopping after a newline. -/
def fgetsN (n : Nat) (cs : List Char) : List Char :=
  match n, cs with
  | 0, _ => []
  | _, [] => []
  | n + 1, c :: rest => if c = Char.ofNat 10 then [c] else c :: fgetsN n rest

/-- Outcome of one line-reading iteration of `check_match`: jump to
`final:` without advancing `readpos`, or match `content` and advance
`readpos` by `advance`. -/
inductive StepResult where
  | final
  | matched (advance : Nat) (content : List Char)
deriving DecidableEq, Repr

/-- One iteration of the `check_match` read loop (validate.c:1153-1190):
`fgets` up to `MATCH_LINE_LENGTH - 1` characters.  Empty read (`fgets`
returning NULL at EOF, or a zero `strlen`) ⇒ `final`.  No trailing newline
and length < `MATCH_LINE_LENGTH - 1` ⇒ incomplete line, `final`.  No
trailing newline and length = `MATCH_LINE_LENGTH - 1` ⇒ discard characters
up to the next newline, counting each (newline included) into `length`;
reaching EOF first jumps to `final` (so `readpos` is *not* advanced).
Otherwise strip the trailing newline.  The line is then matched and
`readpos += length`. -/
def matchLineStep (rest : List Char) : StepResult :=
  let line := fgetsN (MATCH_LINE_LENGTH - 1) rest
  let length := line.length
  if length = 0 then .final
  else if line.getLast? ≠ some (Char.ofNat 10) then
    if length < MATCH_LINE_LENGTH - 1 then .final
    else
      match (rest.drop length).findIdx? (fun x => x = Char.ofNat 10) with
      | none => .final
      | some k => .matched (length + k + 1) line
  else .matched length line.dropLast

/-! ## Percentage scaling (validate.c:269-270, 824-846)

C `double` values are modelled as exact rationals; the C `(int)` cast is
truncation toward zero. -/

/-- The C `(int)` cast on a `double`: truncation toward zero. -/
def ctrunc (x : ℚ) : ℤ := if 0 ≤ x then ⌊x⌋ else ⌈x⌉

/-- The scaled loadavg measurement `(int)(systeminfo.loadavg[i]*10.0)`
fed to `Util_evalQExpression` in the `RESOURCE_ID_LOAD1/5/15` cases of
`check_process_resources` (validate.c:825, 833, 841). -/
def loadavg_scaled (x : ℚ) : ℤ := ctrunc (x * 10)

/-- The `RESOURCE_ID_LOAD1` case of `check_process_resources`
(validate.c:824-830) followed by the single `Resource` event post
(validate.c:877-883). -/
def check_loadavg (x : ℚ) (op : Operator) (limit : Int) : List Event :=
  if Util_evalQExpression op (loadavg_scaled x) limit then
    [⟨.Resource, .FAILED, "loadavg matches resource limit"⟩]
  else
    [⟨.Resource, .SUCCEEDED, "loadavg check succeeded"⟩]

/-- `inode_percent` as computed by `check_filesystem` (validate.c:269):
`f_files > 0 ? (int)((1000.0 * (f_files - f_filesfree)) / (float)f_files) : 0`. -/
def inode_percent (f_files f_filesfree : Int) : Int :=
  if f_files > 0 then ctrunc (1000 * ((f_files : ℚ) - (f_filesfree : ℚ)) / (f_files : ℚ))
  else 0

/-- `space_percent` as computed by `check_filesystem` (validate.c:270). -/
def space_percent (f_blocks f_blocksfree : Int) : Int :=
  if f_blocks > 0 then ctrunc (1000 * ((f_blocks : ℚ) - (f_blocksfree : ℚ)) / (f_blocks : ℚ))
  else 0

/-- The percent branch of the `RESOURCE_ID_INODE` case of
`check_filesystem_resources` (validate.c:1267-1280): compare the stored
scaled `inode_percent` against the scaled limit and post one `Resource`
event. -/
def check_inode_percent (ip : Int) (op : Operator) (limit_percent : Int) : List Event :=
  if Util_evalQExpression op ip limit_percent then
    [⟨.Resource, .FAILED, "inode usage matches resource limit"⟩]
  else
    [⟨.Resource, .SUCCEEDED, "filesystem resources succeeded"⟩]

/-! ## `check_program` (validate.c:451) -/

/-- A `Status_T` rule: operator and expected return value. -/
structure StatusRule where
  op : Operator
  return_value : Int
deriving DecidableEq, Repr

/-- Oracle view of a child process handle (`Process_T`):
`exitStatusFirst` is what `Process_exitStatus` returns when first queried
(negative = still running), `exitStatusFinal` what it returns after
`Process_kill` + `Process_waitFor`, and `message` the bytes a failing
status check reads from the child's stderr (falling back to stdout):
`none` when nothing could be read. -/
structure ChildProc where
  exitStatusFirst : Int
  exitStatusFinal : Int
  message : Option String
deriving DecidableEq, Repr

/-- The `s->program` record of a program service. -/
structure Program where
  child : Option ChildProc
  started : Int
  timeout : Int
  exitStatus : Int
  statuslist : List StatusRule
deriving DecidableEq, Repr

/-- The statuslist loop of `check_program` (validate.c:476-491): one
`Status` event per rule, `FAILED` exactly when the quantitative expression
matches the saved exit status, carrying the message read from the child
when one is available. -/
def evalStatusRules (rules : List StatusRule) (exit : Int) (msg : Option String) : List Event :=
  rules.map (fun st =>
    if Util_evalQExpression st.op exit st.return_value then
      ⟨.Status, .FAILED,
       match msg with
       | some m => m
       | none => "failed with exit status and no output from program"⟩
    else ⟨.Status, .SUCCEEDED, "status succeeded"⟩)

/-- The spawn section of `check_program` (validate.c:494-502):
`newChild` is the oracle result of `Command_execute` (`none` = spawn
failed).  On failure post `Status FAILED`; on success post
`Status SUCCEEDED` and set `started = now`.  Always returns `TRUE`. -/
def spawnProgram (s : Program) (now : Int) (newChild : Option ChildProc)
    (evs : List Event) : Bool × Program × List Event :=
  match newChild with
  | none =>
      (true, { s with child := none },
       evs ++ [⟨.Status, .FAILED, "failed to execute program"⟩])
  | some c =>
      (true, { s with child := some c, started := now },
       evs ++ [⟨.Status, .SUCCEEDED, "program started"⟩])

/-- `check_program` (validate.c:451): if a prior child exists and is still
running within its timeout, defer (return `TRUE`, no events); if it ran
past its timeout, kill and wait for it and evaluate its final exit status;
if it already exited, evaluate its exit status.  Then spawn a fresh child.
Returns the C return value, the updated program state and the posted
events. -/
def check_program (s : Program) (now : Int) (newChild : Option ChildProc) :
    Bool × Program × List Event :=
  match s.child with
  | some P =>
      if P.exitStatusFirst < 0 then
        if now - s.started > s.timeout then
          spawnProgram { s with child := none, exitStatus := P.exitStatusFinal } now newChild
            (evalStatusRules s.statuslist P.exitStatusFinal P.message)
        else
          (true, s, [])
      else
        spawnProgram { s with child := none, exitStatus := P.exitStatusFirst } now newChild
          (evalStatusRules s.statuslist P.exitStatusFirst P.message)
  | none => spawnProgram s now newChild []

/-! ## Theorems -/

/-- C2.  Counterexample to the claim as stated: with unchanged filesystem
flags `check_filesystem_flags` posts zero `Fsflag` events (there is no
`CHANGEDNOT` branch), and with an uninitialized previous pid
`check_process_pid` posts zero `Pid` events — not exactly one per
invocation. -/
theorem check_flags_pid_not_one_event :
    (check_filesystem_flags { flags_prev := 5, flags := 5 }).length ≠ 1 ∧
    (check_process_pid { pid_prev := -1, pid := 42, ppid_prev := -1, ppid := 1 }).length ≠ 1 := by
  decide

/-- C2 (amended).  `check_process_pid` posts exactly one `Pid` event unless
the previous pid is the `-1` sentinel (then none); `check_process_ppid`
likewise for `PPid`; `check_filesystem_flags` posts exactly one `Fsflag`
event when the previous flags are initialized and differ from the current
flags, and none otherwise. -/
theorem check_pid_ppid_fsflag_event_counts (inf : ProcessInf) (f : FilesystemFlags) :
    (check_process_pid inf).length = (if inf.pid_prev = -1 then 0 else 1) ∧
    (check_process_pid inf).all (fun e => e.kind == EventKind.Pid) = true ∧
    (check_process_ppid inf).length = (if inf.ppid_prev = -1 then 0 else 1) ∧
    (check_process_ppid inf).all (fun e => e.kind == EventKind.PPid) = true ∧
    (check_filesystem_flags f).length =
      (if f.flags_prev ≠ -1 ∧ f.flags_prev ≠ f.flags then 1 else 0) ∧
    (check_filesystem_flags f).all (fun e => e.kind == EventKind.Fsflag) = true := by
  refine ⟨?_, ?_, ?_, ?_, ?_, ?_⟩ <;>
    simp only [check_process_pid, check_process_ppid, check_filesystem_flags] <;>
    split_ifs <;> simp_all

/-- C10.  `check_program` returns `TRUE` on every path: whatever the prior
child did (still running within or past its timeout, exited with any
status), whatever the status rules conclude, and whether or not the fresh
spawn succeeds, the validator never reports a fatal condition. -/
theorem check_program_always_true (s : Program) (now : Int) (newChild : Option ChildProc) :
    (check_program s now newChild).1 = true := by
  unfold check_program spawnProgram
  rcases s.child with _ | P <;> rcases newChild with _ | c <;> simp <;> split_ifs <;> simp

/-- C9.  Counterexample to the claim as stated: a first-pass (not yet
initialized) `test_changes` size descriptor only stores the sample — it
posts neither `CHANGED` nor `CHANGEDNOT`, so the first `test_changes`
descriptor is not always "evaluated (posting CHANGED ... or CHANGEDNOT)". -/
theorem check_size_first_pass_no_event :
    (check_size [{ test_changes := true, initialized := false, size := 0,
                   op := Operator.equal }] 5).2 = [] ∧
    (check_size [{ test_changes := true, initialized := false, size := 0,
                   op := Operator.equal }] 5).1 =
      [{ test_changes := true, initialized := true, size := 5, op := Operator.equal }] := by
  constructor <;> rfl

/-- Helper: `check_size` commutes with splitting the list at the first
`test_changes` descriptor: the descriptors before it (all plain) are all
evaluated, the `test_changes` descriptor ends the walk, and the tail is
returned untouched with no events. -/
theorem check_size_split (pre : List SizeDesc) (d : SizeDesc) (post : List SizeDesc)
    (cur : Int) (hpre : ∀ x ∈ pre, x.test_changes = false) (hd : d.test_changes = true) :
    check_size (pre ++ d :: post) cur =
      ((check_size pre cur).1 ++ (check_size [d] cur).1 ++ post,
       (check_size pre cur).2 ++ (check_size [d] cur).2) := by
  induction pre with
  | nil =>
      simp only [List.nil_append, check_size, hd, if_true]
      split_ifs <;> simp [check_size, hd]
  | cons x pre ih =>
      have hx : x.test_changes = false := hpre x (List.mem_cons_self x pre)
      have hpre' : ∀ y ∈ pre, y.test_changes = false :=
        fun y hy => hpre y (List.mem_cons_of_mem x hy)
      simp only [List.cons_append, List.append_eq, check_size, hx, Bool.false_eq_true, if_false]
      rw [ih hpre']
      simp [check_size]

/-- Helper: the analogous split for the timestamplist loop. -/
theorem check_timestamp_loop_split (pre : List TimestampDesc) (d : TimestampDesc)
    (post : List TimestampDesc) (infTs now : Int)
    (hpre : ∀ x ∈ pre, x.test_changes = false) (hd : d.test_changes = true) :
    check_timestamp_loop (pre ++ d :: post) infTs now =
      ((check_timestamp_loop pre infTs now).1 ++ (check_timestamp_loop [d] infTs now).1 ++ post,
       (check_timestamp_loop pre infTs now).2 ++ (check_timestamp_loop [d] infTs now).2) := by
  induction pre with
  | nil =>
      simp only [List.nil_append, check_timestamp_loop, hd, if_true]
      split_ifs <;> simp [check_timestamp_loop, hd]
  | cons x pre ih =>
      have hx : x.test_changes = false := hpre x (List.mem_cons_self x pre)
      have hpre' : ∀ y ∈ pre, y.test_changes = false :=
        fun y hy => hpre y (List.mem_cons_of_mem x hy)
      simp only [List.cons_append, List.append_eq, check_timestamp_loop, hx, Bool.false_eq_true, if_false]
      rw [ih hpre']
      simp [check_timestamp_loop]

/-- C9 (amended).  In `check_size` and `check_timestamp` the walk of the
descriptor list stops at the first descriptor with `test_changes` set:
that descriptor posts `CHANGED` (updating the stored sample) on a change
and `CHANGEDNOT` otherwise — except that an uninitialized size descriptor
on its first pass only stores the sample and posts no event — and every
descriptor after it is returned unevaluated and contributes no event. -/
theorem check_size_timestamp_first_change_breaks
    (pre post : List SizeDesc) (d : SizeDesc) (cur : Int)
    (tpre tpost : List TimestampDesc) (td : TimestampDesc) (infTs now : Int)
    (hpre : ∀ x ∈ pre, x.test_changes = false) (hd : d.test_changes = true)
    (htpre : ∀ x ∈ tpre, x.test_changes = false) (htd : td.test_changes = true) :
    check_size (pre ++ d :: post) cur =
      ((check_size pre cur).1 ++ (check_size [d] cur).1 ++ post,
       (check_size pre cur).2 ++ (check_size [d] cur).2) ∧
    (check_size [d] cur).2 =
      (if d.initialized = false then []
       else if d.size ≠ cur then [⟨EventKind.Size, EventState.CHANGED, "size was changed"⟩]
       else [⟨EventKind.Size, EventState.CHANGEDNOT, "size was not changed"⟩]) ∧
    check_timestamp (tpre ++ td :: tpost) infTs now =
      ((check_timestamp_loop tpre infTs now).1 ++ (check_timestamp_loop [td] infTs now).1 ++ tpost,
       ⟨EventKind.Data, EventState.SUCCEEDED, "actual system time obtained"⟩ ::
         ((check_timestamp_loop tpre infTs now).2 ++ (check_timestamp_loop [td] infTs now).2)) ∧
    (check_timestamp_loop [td] infTs now).2 =
      (if td.timestamp ≠ infTs then
        [⟨EventKind.Timestamp, EventState.CHANGED, "timestamp was changed"⟩]
       else [⟨EventKind.Timestamp, EventState.CHANGEDNOT, "timestamp was not changed"⟩]) := by
  refine ⟨check_size_split pre d post cur hpre hd, ?_, ?_, ?_⟩
  · simp only [check_size, hd, if_true]
    split_ifs <;> simp
  · rw [check_timestamp, check_timestamp_loop_split tpre td tpost infTs now htpre htd]
  · simp only [check_timestamp_loop, htd, if_true]
    split_ifs <;> simp

/-- C9 witness: a changed, initialized `test_changes` size descriptor
followed by a plain descriptor — the walk breaks after the `CHANGED`
post. -/
theorem check_size_timestamp_break_witness :
    check_size ([] ++ { test_changes := true, initialized := true, size := 3,
                        op := Operator.equal } ::
        [{ test_changes := false, initialized := false, size := 0, op := Operator.equal }]) 5 =
      ((check_size [] 5).1 ++
        (check_size [{ test_changes := true, initialized := true, size := 3,
                       op := Operator.equal }] 5).1 ++
        [{ test_changes := false, initialized := false, size := 0, op := Operator.equal }],
       (check_size [] 5).2 ++
        (check_size [{ test_changes := true, initialized := true, size := 3,
                       op := Operator.equal }] 5).2) :=
  (check_size_timestamp_first_change_breaks []
    [{ test_changes := false, initialized := false, size := 0, op := Operator.equal }]
    { test_changes := true, initialized := true, size := 3, op := Operator.equal } 5
    [] [] { test_changes := true, timestamp := 0, op := Operator.equal, time := 0 } 0 0
    (by simp) rfl (by simp) rfl).1

/-- C5.  `check_checksum` on a successful probe: on the first pass the
computed hash is stored as the expected value (and the comparison then
necessarily reports "unchanged"); afterwards the comparison looks at the
first 32 (MD5) / 40 (SHA1) characters; a change posts `CHANGED` and
updates the expected hash under `test_changes`, else `FAILED`; no change
posts `CHANGEDNOT` under `test_changes`, else `SUCCEEDED`. -/
theorem check_checksum_spec (cs : Checksum) (sum : List Char) :
    (cs.initialized = false →
       (check_checksum cs sum).1.hash = sum ∧
       (check_checksum cs sum).1.initialized = true ∧
       (check_checksum cs sum).2 =
         [⟨EventKind.Data, EventState.SUCCEEDED, "checksum computed"⟩,
          if cs.test_changes then
            ⟨EventKind.Checksum, EventState.CHANGEDNOT, "checksum has not changed"⟩
          else ⟨EventKind.Checksum, EventState.SUCCEEDED, "checksum succeeded"⟩]) ∧
    (cs.initialized = true →
       (cs.hash.take (hashLength cs.type) ≠ sum.take (hashLength cs.type) →
          (cs.test_changes = true →
             (check_checksum cs sum).1.hash = sum ∧
             (check_checksum cs sum).2 =
               [⟨EventKind.Data, EventState.SUCCEEDED, "checksum computed"⟩,
                ⟨EventKind.Checksum, EventState.CHANGED, "checksum was changed"⟩]) ∧
          (cs.test_changes = false →
             (check_checksum cs sum).1.hash = cs.hash ∧
             (check_checksum cs sum).2 =
               [⟨EventKind.Data, EventState.SUCCEEDED, "checksum computed"⟩,
                ⟨EventKind.Checksum, EventState.FAILED, "checksum test failed"⟩])) ∧
       (cs.hash.take (hashLength cs.type) = sum.take (hashLength cs.type) →
          (check_checksum cs sum).1.hash = cs.hash ∧
          (check_checksum cs sum).2 =
            [⟨EventKind.Data, EventState.SUCCEEDED, "checksum computed"⟩,
             if cs.test_changes then
               ⟨EventKind.Checksum, EventState.CHANGEDNOT, "checksum has not changed"⟩
             else ⟨EventKind.Checksum, EventState.SUCCEEDED, "checksum succeeded"⟩])) := by
  constructor
  · intro hinit
    simp only [check_checksum, hinit, if_true, ne_eq, not_true_eq_false, if_false]
    cases htc : cs.test_changes <;> simp [htc]
  · intro hinit
    constructor
    · intro hne
      constructor
      · intro htc
        simp [check_checksum, hinit, hne, htc]
      · intro htc
        simp [check_checksum, hinit, hne, htc]
    · intro heq
      cases htc : cs.test_changes <;> simp [check_checksum, hinit, heq, htc]

/-- C5 witness: an initialized MD5 descriptor without `test_changes` whose
stored hash differs from the computed one posts `Checksum FAILED`. -/
theorem check_checksum_spec_witness :
    (check_checksum ⟨HashType.md5, [Char.ofNat 97], true, false⟩ [Char.ofNat 98]).2 =
      [⟨EventKind.Data, EventState.SUCCEEDED, "checksum computed"⟩,
       ⟨EventKind.Checksum, EventState.FAILED, "checksum test failed"⟩] :=
  ((((check_checksum_spec ⟨HashType.md5, [Char.ofNat 97], true, false⟩
        [Char.ofNat 98]).2 rfl).1 (by decide)).2 rfl).2

/-- Helper for C8: the initial accumulator is a lower bound of the C-style
running maximum. -/
theorem le_foldl_maxCycle : ∀ (l : List ActionRate) (a : Int),
    a ≤ l.foldl (fun m ar => if m < ar.cycle then ar.cycle else m) a
  | [], a => le_refl a
  | ar :: l, a => by
      have h1 : a ≤ (if a < ar.cycle then ar.cycle else a) := by split <;> omega
      have h2 := le_foldl_maxCycle l (if a < ar.cycle then ar.cycle else a)
      simpa [List.foldl] using le_trans h1 h2

/-- Helper for C8: the running maximum starts at 0, so it is nonnegative. -/
theorem maxCycle_nonneg (rules : List ActionRate) : 0 ≤ maxCycle rules :=
  le_foldl_maxCycle rules 0

/-- C8.  After `check_timeout` with a nonempty actionratelist, `ncycle`
never exceeds the maximum declared rule cycle; and whenever the
(possibly incremented) `ncycle` had exceeded that maximum, both counters
are 0 on return. -/
theorem check_timeout_resets (rules : List ActionRate) (st : RateState) (h : rules ≠ []) :
    (check_timeout rules st).1.ncycle ≤ maxCycle rules ∧
    ((if st.nstart > 0 then st.ncycle + 1 else st.ncycle) > maxCycle rules →
      (check_timeout rules st).1 = { nstart := 0, ncycle := 0 }) := by
  have hmax := maxCycle_nonneg rules
  simp only [check_timeout, h, if_false]
  constructor
  · split_ifs <;> simp_all
  · intro hgt
    split_ifs with h1 h2 h2 <;> simp_all

/-- C8 witness: one rule with cycle window 2, `nstart = 1`, `ncycle = 5`:
the incremented cycle count 6 exceeds the window, so both counters are
reset. -/
theorem check_timeout_resets_witness :
    (check_timeout [{ count := 1, cycle := 2 }] { nstart := 1, ncycle := 5 }).1 =
      { nstart := 0, ncycle := 0 } :=
  (check_timeout_resets [{ count := 1, cycle := 2 }] { nstart := 1, ncycle := 5 }
    (by decide)).2 (by decide)

/-- Helper for C7: splitting an iteration of `check_skip` calls. -/
theorem check_skip_iter_add (N : Int) (s : SkipState) (a b : Nat) :
    check_skip_iter N s (a + b) =
      ((check_skip_iter N s a).1 ++ (check_skip_iter N (check_skip_iter N s a).2 b).1,
       (check_skip_iter N (check_skip_iter N s a).2 b).2) := by
  induction a generalizing s with
  | zero => simp [check_skip_iter]
  | succ a ih =>
      have : a + 1 + b = (a + b) + 1 := by omega
      rw [this]
      simp only [check_skip_iter]
      rw [ih]
      simp [check_skip_iter]

/-- Helper for C7: as long as the incremented counter stays below `N`,
every call skips, returns `true` and sets `MONITOR_WAITING`. -/
theorem check_skip_iter_run (N : Int) (j k : Nat) (mw : Bool)
    (h : (j : Int) + k ≤ N - 1) :
    check_skip_iter N ⟨false, (j : Int), mw⟩ k =
      (List.replicate k true, ⟨false, ((j + k : Nat) : Int), if k = 0 then mw else true⟩) := by
  induction k generalizing j mw with
  | zero => simp [check_skip_iter]
  | succ k ih =>
      have hlt : (j : Int) + 1 < N := by omega
      have hstep : check_skip N ⟨false, (j : Int), mw⟩ =
          (true, ⟨false, ((j + 1 : Nat) : Int), true⟩) := by
        simp only [check_skip]
        simp [hlt]
      simp only [check_skip_iter, hstep]
      have hrec := ih (j + 1) true (by push_cast; push_cast at h; omega)
      rw [hrec]
      have hj : j + 1 + k = j + (k + 1) := by omega
      simp [hj, List.replicate_succ]

/-- C7.  For a non-visited service on an `EVERY_SKIPCYCLES` schedule with
parameter `N ≥ 1` and a zero counter, `check_skip` returns `true` on each
of the first `N - 1` calls and `false` on the `N`-th, after which the
counter is 0 and `MONITOR_WAITING` is cleared, so the pattern repeats. -/
theorem check_skip_every_cycles (N : Int) (hN : 1 ≤ N) (s0 : SkipState)
    (hv : s0.visited = false) (hc : s0.counter = 0) :
    (check_skip_iter N s0 N.toNat).1 = List.replicate (N.toNat - 1) true ++ [false] ∧
    (check_skip_iter N s0 N.toNat).2 = ⟨false, 0, false⟩ ∧
    (∀ k : Nat, (k : Int) ≤ N - 1 → (check_skip_iter N s0 k).1 = List.replicate k true) := by
  obtain ⟨v, c, mw⟩ := s0
  simp only at hv hc
  subst hv hc
  have hs0 : (⟨false, 0, mw⟩ : SkipState) = ⟨false, ((0 : Nat) : Int), mw⟩ := by norm_num
  have hM : N.toNat = (N.toNat - 1) + 1 := by omega
  have hrun := check_skip_iter_run N 0 (N.toNat - 1) mw (by omega)
  have hlast : ∀ mw' : Bool,
      check_skip N ⟨false, ((N.toNat - 1 : Nat) : Int), mw'⟩ = (false, ⟨false, 0, false⟩) := by
    intro mw'
    have hnlt : ¬ (((N.toNat - 1 : Nat) : Int) + 1 < N) := by omega
    simp only [check_skip]
    simp [hnlt]
  refine ⟨?_, ?_, ?_⟩
  · rw [hM, check_skip_iter_add, hs0, hrun]
    simp only [Nat.zero_add]
    simp [check_skip_iter, hlast]
  · rw [hM, check_skip_iter_add, hs0, hrun]
    simp only [Nat.zero_add]
    simp [check_skip_iter, hlast]
  · intro k hk
    rw [hs0, check_skip_iter_run N 0 k mw (by omega)]

/-- C7 witness: `N = 3` starting from a zero counter gives
`true, true, false` and returns to the all-clear state. -/
theorem check_skip_every_cycles_witness :
    (check_skip_iter 3 ⟨false, 0, false⟩ (3 : Int).toNat).1 =
      List.replicate ((3 : Int).toNat - 1) true ++ [false] ∧
    (check_skip_iter 3 ⟨false, 0, false⟩ (3 : Int).toNat).2 = ⟨false, 0, false⟩ :=
  ⟨(check_skip_every_cycles 3 (by decide) ⟨false, 0, false⟩ rfl rfl).1,
   (check_skip_every_cycles 3 (by decide) ⟨false, 0, false⟩ rfl rfl).2.1⟩

/-- Helper for C1: when every attempt fails, the retry loop makes exactly
`rc.toNat` attempts (for `rc ≥ 1`) and ends in failure carrying the last
attempt's report, whatever the incoming flag and report. -/
theorem connLoop_all_fail (m : Nat → String) : ∀ (n : Nat) (idx : Nat) (rv : Bool)
    (rep : String) (rc : Int), rc.toNat = n → 1 ≤ rc →
    connLoop (fun i => AttemptRes.fail (m i)) idx rv rep rc = (n, .failure (m (idx + n - 1)))
  | 0, idx, rv, rep, rc => by omega
  | n + 1, idx, rv, rep, rc => by
      intro hn hrc
      rw [connLoop.eq_def]
      by_cases hgt : rc > 1
      · have hrec := connLoop_all_fail m n (idx + 1) false (m idx) (rc - 1) (by omega) (by omega)
        have hn1 : 1 ≤ n := by omega
        have hidx : idx + 1 + n - 1 = idx + (n + 1) - 1 := by omega
        simp [hgt, hrec, hidx]
      · have hn0 : n = 0 := by omega
        simp [hgt, hn0]

/-- Helper for C1: once the `rv` flag is down, the loop can only end in
failure, making one attempt per remaining unit of retry budget. -/
theorem connLoop_rv_latched (att : Nat → AttemptRes) : ∀ (n : Nat) (idx : Nat)
    (rep : String) (rc : Int), rc.toNat = n → 1 ≤ rc →
    ∃ r, connLoop att idx false rep rc = (n, .failure r)
  | 0, idx, rep, rc => by omega
  | n + 1, idx, rep, rc => by
      intro hn hrc
      rw [connLoop.eq_def]
      by_cases hgt : rc > 1
      · have hn1 : 1 ≤ n := by omega
        cases hatt : att idx with
        | ok t =>
            obtain ⟨r, hr⟩ :=
              connLoop_rv_latched att n (idx + 1) rep (rc - 1) (by omega) (by omega)
            exact ⟨r, by simp [hatt, hgt, hr]⟩
        | fail r0 =>
            obtain ⟨r, hr⟩ :=
              connLoop_rv_latched att n (idx + 1) r0 (rc - 1) (by omega) (by omega)
            exact ⟨r, by simp [hatt, hgt, hr]⟩
      · have hn0 : n = 0 := by omega
        cases hatt : att idx with
        | ok t => exact ⟨rep, by simp [hatt, hgt, hn0]⟩
        | fail r0 => exact ⟨r0, by simp [hatt, hgt, hn0]⟩

/-- C1.  Counterexample to the claim as stated, two parts.  With
`p.retry = 2` and a first attempt that succeeds, only one connection
attempt is made, not exactly `p.retry = 2`.  And an attempt that succeeds
*after* a failed one does not produce the claimed success outcome: with
`p.retry = 2`, a failing first attempt and a succeeding second one, the
code still reports unavailability and posts `Connection FAILED` (the `rv`
flag is never reset at the `retry:` label). -/
theorem check_connection_early_success :
    ((check_connection { retry := 2, response := 0, is_available := false }
      (fun _ => AttemptRes.ok 5)).attempts = 1 ∧ (1 : Nat) ≠ 2) ∧
    ((check_connection { retry := 2, response := 0, is_available := false }
      (fun i => if i = 0 then AttemptRes.fail "f" else AttemptRes.ok 5)).port.is_available
        = false ∧
     (check_connection { retry := 2, response := 0, is_available := false }
      (fun i => if i = 0 then AttemptRes.fail "f" else AttemptRes.ok 5)).events =
       [⟨EventKind.Connection, EventState.FAILED, "f"⟩]) := by
  have h1 : connLoop (fun _ => AttemptRes.ok 5) 0 true "" 2 = (1, .success 5) := by
    rw [connLoop.eq_def]
    norm_num
  have hb : connLoop (fun i => if i = 0 then AttemptRes.fail "f" else AttemptRes.ok 5)
      1 false "f" 1 = (1, .failure "f") := by
    rw [connLoop.eq_def]
    norm_num
  have h2 : connLoop (fun i => if i = 0 then AttemptRes.fail "f" else AttemptRes.ok 5)
      0 true "" 2 = (2, .failure "f") := by
    rw [connLoop.eq_def]
    norm_num [hb]
  refine ⟨⟨?_, by decide⟩, ?_, ?_⟩ <;> simp [check_connection, h1, h2]

/-- C1 (amended).  `check_connection` makes exactly `p.retry` attempts
(for `p.retry ≥ 1`) whenever the first attempt fails, and exactly one when
the first attempt succeeds.  When every attempt fails it sets
`p.response = -1`, `p.is_available = false` and posts exactly one
`Connection FAILED` event carrying the last recorded error message.  Only
a success of the *first* attempt takes the success path — setting
`p.is_available = true`, storing the response time and posting exactly one
`Connection SUCCEEDED` event; a success after an earlier failure is still
driven into the failure path, because the C `rv` flag is never reset. -/
theorem check_connection_retries (p : Port) (m : Nat → String) (att : Nat → AttemptRes)
    (hr : 1 ≤ p.retry) :
    ((check_connection p (fun i => AttemptRes.fail (m i))).attempts = p.retry.toNat ∧
     (check_connection p (fun i => AttemptRes.fail (m i))).port.response = -1 ∧
     (check_connection p (fun i => AttemptRes.fail (m i))).port.is_available = false ∧
     (check_connection p (fun i => AttemptRes.fail (m i))).events =
       [⟨EventKind.Connection, EventState.FAILED, m (p.retry.toNat - 1)⟩]) ∧
    (∀ t : Int, att 0 = AttemptRes.ok t →
       (check_connection p att).attempts = 1 ∧
       (check_connection p att).port.is_available = true ∧
       (check_connection p att).port.response = t ∧
       (check_connection p att).events =
         [⟨EventKind.Connection, EventState.SUCCEEDED, "connection succeeded"⟩]) ∧
    (∀ r0 : String, att 0 = AttemptRes.fail r0 →
       (check_connection p att).attempts = p.retry.toNat ∧
       (check_connection p att).port.response = -1 ∧
       (check_connection p att).port.is_available = false ∧
       ∃ r, (check_connection p att).events =
         [⟨EventKind.Connection, EventState.FAILED, r⟩]) := by
  refine ⟨?_, ?_, ?_⟩
  · have h := connLoop_all_fail m p.retry.toNat 0 true "" p.retry rfl hr
    simp [check_connection, h]
  · intro t hok
    have h : connLoop att 0 true "" p.retry = (1, .success t) := by
      rw [connLoop.eq_def]
      simp [hok]
    simp [check_connection, h]
  · intro r0 hfail
    by_cases hgt : p.retry > 1
    · obtain ⟨r, hrec⟩ := connLoop_rv_latched att (p.retry - 1).toNat 1 r0 (p.retry - 1)
        rfl (by omega)
      have h : connLoop att 0 true "" p.retry = ((p.retry - 1).toNat + 1, .failure r) := by
        rw [connLoop.eq_def]
        simp [hfail, hgt, hrec]
      have htn : (p.retry - 1).toNat + 1 = p.retry.toNat := by omega
      rw [htn] at h
      simp [check_connection, h]
    · have h : connLoop att 0 true "" p.retry = (1, .failure r0) := by
        rw [connLoop.eq_def]
        simp [hfail, hgt]
      have htn : p.retry.toNat = 1 := by omega
      simp [check_connection, h, htn]

/-- C1 witness: three attempts that all fail give exactly 3 attempts, a
`-1` response, unavailability and one `Connection FAILED` event. -/
theorem check_connection_retries_witness :
    (check_connection { retry := 3, response := 0, is_available := false }
      (fun _ => AttemptRes.fail "f")).attempts = (3 : Int).toNat ∧
    (check_connection { retry := 3, response := 0, is_available := false }
      (fun _ => AttemptRes.fail "f")).port.response = -1 :=
  have h := check_connection_retries { retry := 3, response := 0, is_available := false }
    (fun _ => "f") (fun _ => AttemptRes.ok 0) (by decide)
  ⟨h.1.1, h.1.2.1⟩

/-- Helper for C6: every event posted by an `icmpStep` is an `Icmp` event. -/
theorem icmpStep_events_icmp (i : Icmp) : ∀ e ∈ (icmpStep i).2, e.kind = EventKind.Icmp := by
  intro e he
  simp only [icmpStep] at he
  split_ifs at he <;> simp_all

/-- Helper for C6: on an all-echo icmplist the loop completes, posts only
`Icmp` events and leaves `last_ping` pointing at the processed last
descriptor. -/
theorem icmpLoop_all_echo (l : List Icmp) (hl : ∀ i ∈ l, i.type = IcmpType.echo) :
    ∀ last : Option Icmp,
    (icmpLoop last l).1 = true ∧
    (∀ e ∈ (icmpLoop last l).2.2, e.kind = EventKind.Icmp) ∧
    (icmpLoop last l).2.1 = (match l.getLast? with
      | some i => some (icmpStep i).1
      | none => last) := by
  induction l with
  | nil => intro last; simp [icmpLoop]
  | cons i rest ih =>
      intro last
      have hi : i.type = IcmpType.echo := hl i (List.mem_cons_self i rest)
      have hrest : ∀ x ∈ rest, x.type = IcmpType.echo :=
        fun x hx => hl x (List.mem_cons_of_mem i hx)
      have hrec := ih hrest (some (icmpStep i).1)
      refine ⟨?_, ?_, ?_⟩
      · simp only [icmpLoop, hi]
        simpa using hrec.1
      · intro e he
        simp only [icmpLoop, hi] at he
        rcases List.mem_append.mp (by simpa using he) with h1 | h2
        · exact icmpStep_events_icmp i e h1
        · exact hrec.2.1 e h2
      · simp only [icmpLoop, hi]
        cases rest with
        | nil => simp [icmpLoop]
        | cons j rest2 =>
            have := hrec.2.2
            simpa [List.getLast?_cons_cons] using this

/-- C6.  For a remote host service whose icmplist is nonempty, all-echo,
and whose last ICMP probe returned `-1` (unavailable), `check_remote_host`
returns `FALSE` and posts zero `Connection` events — every port probe is
skipped. -/
theorem check_remote_host_gates_ports
    (icmps : List Icmp) (ports : List (Port × (Nat → AttemptRes)))
    (hne : icmps ≠ []) (hecho : ∀ i ∈ icmps, i.type = IcmpType.echo)
    (hlast : (icmps.getLast hne).response = -1) :
    (check_remote_host icmps ports).1 = false ∧
    (check_remote_host icmps ports).2.filter (fun e => e.kind == EventKind.Connection) = [] := by
  have hloop := icmpLoop_all_echo icmps hecho none
  have hget : icmps.getLast? = some (icmps.getLast hne) := List.getLast?_eq_getLast icmps hne
  have hstep : (icmpStep (icmps.getLast hne)).1.is_available = false := by
    simp only [icmpStep, hlast]
    norm_num
  rcases hr : icmpLoop none icmps with ⟨ok, last, evs⟩
  rw [hr] at hloop
  simp only at hloop
  obtain ⟨hok, hkinds, hlastp⟩ := hloop
  rw [hget] at hlastp
  simp only at hlastp
  subst hok
  subst hlastp
  constructor
  · simp [check_remote_host, hr, hstep]
  · have h2 : (check_remote_host icmps ports).2 = evs := by
      simp [check_remote_host, hr, hstep]
    rw [h2, List.filter_eq_nil_iff]
    intro e he
    simp [hkinds e he]

/-- C6 witness: one echo descriptor whose ping failed and one configured
port — the validator returns `FALSE` and no `Connection` event appears. -/
theorem check_remote_host_gates_ports_witness :
    (check_remote_host [⟨IcmpType.echo, -1, true⟩]
      [({ retry := 1, response := 0, is_available := false }, fun _ => AttemptRes.ok 1)]).1
      = false :=
  (check_remote_host_gates_ports [⟨IcmpType.echo, -1, true⟩]
    [({ retry := 1, response := 0, is_available := false }, fun _ => AttemptRes.ok 1)]
    (by simp) (by simp) (by simp [List.getLast])).1

/-- C3.  Counterexample to the claim as stated: the C code truncates the
scaled value toward zero (the `(int)` cast), it does not round to the
nearest tenth: for a load average of `0.29` the measured value fed to the
comparison is `2`, while `round(0.29 * 10) = 3`. -/
theorem loadavg_truncates_not_rounds :
    loadavg_scaled (29/100) = 2 ∧ round ((29/100 : ℚ) * 10) = 3 ∧
    loadavg_scaled (29/100) ≠ round ((29/100 : ℚ) * 10) := by
  have h1 : loadavg_scaled (29/100) = 2 := by
    norm_num [loadavg_scaled, ctrunc, Int.floor_eq_iff]
  have h2 : round ((29/100 : ℚ) * 10) = 3 := by
    rw [round_eq]
    norm_num [Int.floor_eq_iff]
  exact ⟨h1, h2, by rw [h1, h2]; decide⟩

/-- C3 (amended).  Percentage and loadavg comparisons go through
`Util_evalQExpression` on integers scaled by 10, the measured value being
the C truncation toward zero of `x·10` — for the nonnegative values
involved, `⌊x·10⌋`, not `round(x·10)`.  The comparison outcome depends on
the float only through that scaled integer (no direct float comparison),
and the filesystem `inode_percent` fed to the comparison is
`⌊1000·(files − filesfree)/files⌋`. -/
theorem percentage_scaled_comparison (x y : ℚ) (hx : 0 ≤ x) (hy : 0 ≤ y)
    (op : Operator) (limit : Int) (files free : Int)
    (hf : 0 < files) (hle : free ≤ files) :
    loadavg_scaled x = ⌊x * 10⌋ ∧
    (check_loadavg x op limit =
        [⟨EventKind.Resource, EventState.FAILED, "loadavg matches resource limit"⟩] ↔
      Util_evalQExpression op ⌊x * 10⌋ limit = true) ∧
    (⌊x * 10⌋ = ⌊y * 10⌋ → check_loadavg x op limit = check_loadavg y op limit) ∧
    inode_percent files free = ⌊1000 * ((files : ℚ) - (free : ℚ)) / (files : ℚ)⌋ ∧
    (check_inode_percent (inode_percent files free) op limit =
        [⟨EventKind.Resource, EventState.FAILED, "inode usage matches resource limit"⟩] ↔
      Util_evalQExpression op ⌊1000 * ((files : ℚ) - (free : ℚ)) / (files : ℚ)⌋ limit = true) ∧
    space_percent files free = ⌊1000 * ((files : ℚ) - (free : ℚ)) / (files : ℚ)⌋ := by
  have hx10 : (0 : ℚ) ≤ x * 10 := by positivity
  have hy10 : (0 : ℚ) ≤ y * 10 := by positivity
  have hxf : loadavg_scaled x = ⌊x * 10⌋ := by simp [loadavg_scaled, ctrunc, hx10]
  have hyf : loadavg_scaled y = ⌊y * 10⌋ := by simp [loadavg_scaled, ctrunc, hy10]
  have hfq : (0 : ℚ) < (files : ℚ) := by exact_mod_cast hf
  have hnum : (0 : ℚ) ≤ 1000 * ((files : ℚ) - (free : ℚ)) := by
    have : (free : ℚ) ≤ (files : ℚ) := by exact_mod_cast hle
    nlinarith
  have hquot : (0 : ℚ) ≤ 1000 * ((files : ℚ) - (free : ℚ)) / (files : ℚ) :=
    div_nonneg hnum (le_of_lt hfq)
  have hip : inode_percent files free = ⌊1000 * ((files : ℚ) - (free : ℚ)) / (files : ℚ)⌋ := by
    simp [inode_percent, ctrunc, hf, hquot]
  have hsp : space_percent files free =
      ⌊1000 * ((files : ℚ) - (free : ℚ)) / (files : ℚ)⌋ := by
    simp [space_percent, ctrunc, hf, hquot]
  refine ⟨hxf, ?_, ?_, hip, ?_, hsp⟩
  · rw [check_loadavg, hxf]
    cases hev : Util_evalQExpression op ⌊x * 10⌋ limit <;> simp [hev]
  · intro hxy
    rw [check_loadavg, check_loadavg, hxf, hyf, hxy]
  · rw [check_inode_percent, hip]
    cases hev : Util_evalQExpression op ⌊1000 * ((files : ℚ) - (free : ℚ)) / (files : ℚ)⌋ limit <;>
      simp [hev]

/-- C3 witness: the scaled measurement for a 0.29 load average is the
floor of 2.9, and `inode_percent` for 3 inodes with 1 free is
`⌊2000/3⌋ = 666` tenths of a percent. -/
theorem percentage_scaled_comparison_witness :
    loadavg_scaled (29/100) = ⌊(29/100 : ℚ) * 10⌋ ∧ inode_percent 3 1 = 666 := by
  have h := percentage_scaled_comparison (29/100) (25/100) (by norm_num) (by norm_num)
    Operator.greater 500 3 1 (by norm_num) (by norm_num)
  refine ⟨h.1, ?_⟩
  rw [h.2.2.2.1]
  norm_num [Int.floor_eq_iff]

/-- Helper for C4: as long as no newline occurs among the first `n`
characters, `fgets` returns exactly the first `n` characters. -/
theorem fgetsN_no_newline : ∀ (n : Nat) (l : List Char),
    (∀ c ∈ l.take n, c ≠ Char.ofNat 10) → fgetsN n l = l.take n
  | 0, l, _ => by simp [fgetsN]
  | n + 1, [], _ => by simp [fgetsN]
  | n + 1, c :: cs, h => by
      have hc : ¬ (c = Char.ofNat 10) := h c (by simp)
      simp only [fgetsN, if_neg hc, List.take_succ_cons, List.cons.injEq, true_and]
      exact fgetsN_no_newline n cs (fun x hx => h x (by simp [hx]))

/-- Helper for C4: evaluation of one read-loop iteration when the buffer
fills completely (511 characters, no trailing newline): the outcome is
decided by the position of the next newline in the remainder of the
file. -/
theorem matchLineStep_full_buffer (rest line : List Char)
    (hfg : fgetsN (MATCH_LINE_LENGTH - 1) rest = line)
    (hnlast : ¬ (line.getLast? = some (Char.ofNat 10)))
    (hclen : line.length = 511) :
    matchLineStep rest =
      (match (rest.drop 511).findIdx? (fun x => x = Char.ofNat 10) with
       | none => StepResult.final
       | some k => StepResult.matched (511 + k + 1) line) := by
  simp only [matchLineStep]
  rw [hfg, hclen]
  rw [if_neg (by decide : ¬ ((511 : Nat) = 0)), if_pos hnlast,
      if_neg (by decide : ¬ ((511 : Nat) < MATCH_LINE_LENGTH - 1))]

/-- C4.  Counterexample to the claim as stated: a 511-character line with
no newline before end of file.  The overflow-consumption loop hits `EOF`
and jumps to `final:` *without* advancing `readpos` — under the claim the
consumed bytes would be counted and `readpos` advanced by 511. -/
theorem check_match_eof_no_advance :
    matchLineStep (List.replicate 511 (Char.ofNat 97)) = StepResult.final ∧
    matchLineStep (List.replicate 511 (Char.ofNat 97)) ≠
      StepResult.matched 511 (List.replicate 511 (Char.ofNat 97)) := by
  have hnl : ∀ c ∈ (List.replicate 511 (Char.ofNat 97)).take 511, c ≠ Char.ofNat 10 := by
    intro c hc
    have hca := List.eq_of_mem_replicate (List.mem_of_mem_take hc)
    rw [hca]
    decide
  have hfg := fgetsN_no_newline 511 (List.replicate 511 (Char.ofNat 97)) hnl
  have hclen : ((List.replicate 511 (Char.ofNat 97)).take 511).length = 511 := by
    rw [List.length_take, List.length_replicate]
    omega
  have hne : (List.replicate 511 (Char.ofNat 97)).take 511 ≠ [] := by
    intro h
    rw [h] at hclen
    exact absurd hclen (by decide)
  have hnlast : ¬ (((List.replicate 511 (Char.ofNat 97)).take 511).getLast? =
      some (Char.ofNat 10)) := by
    rw [List.getLast?_eq_getLast _ hne]
    intro heq
    exact hnl _ (List.getLast_mem hne) (Option.some_injective _ heq)
  have heval := matchLineStep_full_buffer (List.replicate 511 (Char.ofNat 97)) _ hfg hnlast hclen
  have hdrop : (List.replicate 511 (Char.ofNat 97)).drop 511 = ([] : List Char) :=
    List.drop_eq_nil_of_le (by rw [List.length_replicate])
  have hfinal : matchLineStep (List.replicate 511 (Char.ofNat 97)) = StepResult.final := by
    rw [heval, hdrop]
    rfl
  exact ⟨hfinal, by rw [hfinal]; intro h; exact StepResult.noConfusion h⟩

/-- C4 (amended).  When a line is read with no trailing newline and its
length is exactly `MATCH_LINE_LENGTH - 1 = 511`, the evaluator consumes
the following bytes up to the next newline, counting each consumed byte
(newline included) into the length while discarding its content, and
advances `readpos` by the resulting total `512 + k` (`k` the offset of the
newline in the remainder); but if end of file is reached before a newline,
it jumps to `final:` and `readpos` is not advanced at all. -/
theorem check_match_oversize_advance (rest : List Char)
    (hlen : 511 ≤ rest.length) (hnl : ∀ c ∈ rest.take 511, c ≠ Char.ofNat 10) :
    ((rest.drop 511).findIdx? (fun x => x = Char.ofNat 10) = none →
       matchLineStep rest = StepResult.final) ∧
    (∀ k, (rest.drop 511).findIdx? (fun x => x = Char.ofNat 10) = some k →
       matchLineStep rest = StepResult.matched (512 + k) (rest.take 511)) := by
  have hfg : fgetsN (MATCH_LINE_LENGTH - 1) rest = rest.take 511 :=
    fgetsN_no_newline 511 rest hnl
  have hclen : (rest.take 511).length = 511 := by
    rw [List.length_take]
    omega
  have hne : rest.take 511 ≠ [] := by
    intro h
    rw [h] at hclen
    exact absurd hclen (by decide)
  have hnlast : ¬ ((rest.take 511).getLast? = some (Char.ofNat 10)) := by
    rw [List.getLast?_eq_getLast _ hne]
    intro heq
    exact hnl _ (List.getLast_mem hne) (Option.some_injective _ heq)
  have heval := matchLineStep_full_buffer rest _ hfg hnlast hclen
  constructor
  · intro hnone
    rw [heval, hnone]
  · intro k hk
    rw [heval, hk]
    show StepResult.matched (511 + k + 1) (rest.take 511) =
      StepResult.matched (512 + k) (rest.take 511)
    have h512 : 511 + k + 1 = 512 + k := by omega
    rw [h512]

/-- C4 witness: a 511-character line followed by 88 more characters and a
newline (a 600-byte line including its newline): the next newline sits at
offset 88 of the remainder, so `readpos` advances by `512 + 88 = 600`. -/
theorem check_match_oversize_advance_witness :
    matchLineStep (List.replicate 511 (Char.ofNat 97) ++
        (List.replicate 88 (Char.ofNat 98) ++ [Char.ofNat 10])) =
      StepResult.matched (512 + 88)
        ((List.replicate 511 (Char.ofNat 97) ++
          (List.replicate 88 (Char.ofNat 98) ++ [Char.ofNat 10])).take 511) := by
  have h := check_match_oversize_advance
    (List.replicate 511 (Char.ofNat 97) ++
      (List.replicate 88 (Char.ofNat 98) ++ [Char.ofNat 10]))
    (by
      simp only [List.length_append, List.length_replicate, List.length_singleton]
      omega)
    (by
      intro c hc
      rw [List.take_append_of_le_length (by rw [List.length_replicate])] at hc
      have hca := List.eq_of_mem_replicate (List.mem_of_mem_take hc)
      rw [hca]
      decide)
  refine h.2 88 ?_
  rw [List.drop_append_of_le_length (by rw [List.length_replicate])]
  rw [List.drop_eq_nil_of_le (by rw [List.length_replicate])]
  rw [List.nil_append]
  decide

end Monit
